import Mathlib

/-!
Shallow embedding of the getcitation quote service (Go): the PostgreSQL
data-access layer, the service layer and the three HTTP transport handlers,
together with theorems checking the specification's claims against them.

The database is modelled as an explicit state (the rows of the `quotes`
table plus the next identifier the `id` sequence would hand out).  The
external failure modes of the database connection (a failing `Begin`, a
failing statement, a failing `RowsAffected`, a failing `Commit`) are
modelled by an injected `Faults` record: `none` in a field means the
corresponding low-level call succeeds and behaves as the healthy database
semantics dictates.
-/

namespace GetCitation

/-- `postgresql.Quote`: one row of the `quotes` table. -/
structure Quote where
  ID : Int
  Author : String
  Quote : String
deriving Repr, DecidableEq

/-- Go error values as this program builds and inspects them.
`wrap` is `fmt.Errorf("%s: %w", op, err)`; the sentinel constructors are
`*pq.Error` (with its code), `sql.ErrNoRows`, `postgresql.ErrDuplicateEntry`,
`getcitation.ErrDuplicateEntry` and `getcitation.ErrNoQuotesFound`; `other`
stands for any further error value. -/
inductive GoError where
  | pqError (code : String)
  | sqlErrNoRows
  | errDuplicateEntry
  | appErrDuplicateEntry
  | appErrNoQuotesFound
  | other (msg : String)
  | wrap (op : String) (e : GoError)
deriving Repr, DecidableEq

/-- `errors.Is err target` for the sentinel targets this program uses:
unwraps `fmt.Errorf("%s: %w", ...)` chains and compares. -/
def errorsIs : GoError → GoError → Bool
  | .wrap _ e, t => errorsIs e t
  | e, t => e == t

/-- `errors.As(err, &pqErr)` followed by reading `pqErr.Code`: the PostgreSQL
error code found by unwrapping, when one is there. -/
def pqCode : GoError → Option String
  | .wrap _ e => pqCode e
  | .pqError c => some c
  | _ => none

/-- `postgresql.CodeDuplicateEntry`: the PostgreSQL unique-violation code. -/
def CodeDuplicateEntry : String := "23505"

/-- The state of the `quotes` table: its rows and the next value of the
`id` sequence. -/
structure DBState where
  rows : List Quote
  nextId : Int
deriving Repr, DecidableEq

/-- Whether a row with this (author, quote) pair is already stored: the
uniqueness constraint the schema places on (author, quote). -/
def dupExists (db : DBState) (author text : String) : Bool :=
  db.rows.any fun r => r.Author == author && r.Quote == text

/-- What the healthy database reports for
`INSERT INTO quotes (author, quote) VALUES ($1, $2) RETURNING id`:
a unique-violation error (code 23505) when the (author, quote) pair is
already stored, otherwise the generated identifier and the new table state. -/
def dbInsert (db : DBState) (author text : String) : Except GoError (Int × DBState) :=
  if dupExists db author text then .error (.pqError CodeDuplicateEntry)
  else .ok (db.nextId, ⟨db.rows ++ [⟨db.nextId, author, text⟩], db.nextId + 1⟩)

/-- Injected failures of the database connection, one per low-level call a
handler makes.  `none` means the call succeeds. -/
structure Faults where
  beginErr : Option GoError
  stmtErr : Option GoError
  affectedErr : Option GoError
  commitErr : Option GoError
deriving Repr, DecidableEq

/-- A healthy connection: no injected failures. -/
def noFaults : Faults := ⟨none, none, none, none⟩

/-- The outcome the database reports for the INSERT statement of
`postgresql.CreateQuote`: the injected statement fault when there is one,
otherwise the healthy insert semantics. -/
def insertOutcome (f : Faults) (db : DBState) (q : Quote) : Except GoError (Int × DBState) :=
  match f.stmtErr with
  | some e => .error e
  | none => dbInsert db q.Author q.Quote

namespace postgresql

/-- `postgresql.Handlers.CreateQuote`: Begin, INSERT ... RETURNING id,
Commit; a statement error whose pq code is 23505 is translated to
`ErrDuplicateEntry`; every error path rolls back (state unchanged). -/
def CreateQuote (f : Faults) (db : DBState) (quote : Quote) :
    Except GoError Int × DBState :=
  match f.beginErr with
  | some e => (.error (.wrap "postgresql.CreateQuote()" e), db)
  | none =>
    match insertOutcome f db quote with
    | .error e =>
      if pqCode e = some CodeDuplicateEntry then
        (.error (.wrap "postgresql.CreateQuote()" .errDuplicateEntry), db)
      else
        (.error (.wrap "postgresql.CreateQuote()" e), db)
    | .ok (id, db2) =>
      match f.commitErr with
      | some e => (.error (.wrap "postgresql.CreateQuote()" e), db)
      | none => (.ok id, db2)

/-- `postgresql.Handlers.DeleteQuoteByID`: Begin,
`DELETE FROM quotes WHERE id = $1`, RowsAffected, a zero count is reported
as `sql.ErrNoRows`, then Commit; every error path rolls back. -/
def DeleteQuoteByID (f : Faults) (db : DBState) (id : Int) :
    Except GoError Unit × DBState :=
  match f.beginErr with
  | some e => (.error (.wrap "postgresql.DeleteQuoteByID()" e), db)
  | none =>
    match f.stmtErr with
    | some e => (.error (.wrap "postgresql.DeleteQuoteByID()" e), db)
    | none =>
      let affected := (db.rows.filter fun r => r.ID == id).length
      let db2 : DBState := ⟨db.rows.filter fun r => r.ID != id, db.nextId⟩
      match f.affectedErr with
      | some e => (.error (.wrap "postgresql.DeleteQuoteByID()" e), db)
      | none =>
        if affected = 0 then
          (.error (.wrap "postgresql.DeleteQuoteByID()" .sqlErrNoRows), db)
        else
          match f.commitErr with
          | some e => (.error (.wrap "postgresql.DeleteQuoteByID()" e), db)
          | none => (.ok (), db2)

/-- `postgresql.Handlers.GetRandomQuote`: Begin,
`SELECT ... ORDER BY RANDOM() LIMIT 1` (modelled by an arbitrary `pick`
index into the rows; `Scan` reports `sql.ErrNoRows` on an empty table),
then Commit. -/
def GetRandomQuote (f : Faults) (db : DBState) (pick : Nat) :
    Except GoError Quote :=
  match f.beginErr with
  | some e => .error (.wrap "postgresql.GetRandomQuote()" e)
  | none =>
    match f.stmtErr with
    | some e => .error (.wrap "postgresql.GetRandomQuote()" e)
    | none =>
      match db.rows.get? (pick % db.rows.length) with
      | none => .error (.wrap "postgresql.GetRandomQuote()" .sqlErrNoRows)
      | some q =>
        match f.commitErr with
        | some e => .error (.wrap "postgresql.GetRandomQuote()" e)
        | none => .ok q

/-- `postgresql.Handlers.GetQuotes`: Begin, a SELECT over the whole table or
filtered by author, the row loop (a multi-row query yields its rows, an empty
result set yields the empty list and no error; `rows.Err()` is modelled by
the `affectedErr` fault), then Commit. -/
def GetQuotes (f : Faults) (db : DBState) (authorFilter : String) :
    Except GoError (List Quote) :=
  match f.beginErr with
  | some e => .error (.wrap "postgresql.GetQuotes()" e)
  | none =>
    match f.stmtErr with
    | some e =>
      if errorsIs e .sqlErrNoRows then
        .error (.wrap "postgresql.GetQuotes()" .sqlErrNoRows)
      else
        .error (.wrap "postgresql.GetQuotes()" e)
    | none =>
      let quotes :=
        if authorFilter = "" then db.rows
        else db.rows.filter fun r => r.Author == authorFilter
      match f.affectedErr with
      | some e => .error (.wrap "postgresql.GetQuotes()" e)
      | none =>
        match f.commitErr with
        | some e => .error (.wrap "postgresql.GetQuotes()" e)
        | none => .ok quotes

end postgresql

namespace getcitation

/-- `getcitation.Service.CreateQuote`: builds the storage `Quote` from the
author and text (the ID field left at its zero value), calls the storage
layer, and translates `postgresql.ErrDuplicateEntry` into the service-level
`ErrDuplicateEntry`. -/
def Service.CreateQuote (f : Faults) (db : DBState) (author quote : String) :
    Except GoError Int × DBState :=
  let r := postgresql.CreateQuote f db ⟨0, author, quote⟩
  match r.1 with
  | .error e =>
    if errorsIs e .errDuplicateEntry then
      (.error (.wrap "getcitation.Service.CreateQuote()" .appErrDuplicateEntry), r.2)
    else
      (.error (.wrap "getcitation.Service.CreateQuote()" e), r.2)
  | .ok id => (.ok id, r.2)

/-- `getcitation.Service.DeleteQuoteByID`: calls the storage layer and
translates `sql.ErrNoRows` into the service-level `ErrNoQuotesFound`. -/
def Service.DeleteQuoteByID (f : Faults) (db : DBState) (id : Int) :
    Except GoError Unit × DBState :=
  let r := postgresql.DeleteQuoteByID f db id
  match r.1 with
  | .error e =>
    if errorsIs e .sqlErrNoRows then
      (.error (.wrap "getcitation.Service.DeleteQuoteByID()" .appErrNoQuotesFound), r.2)
    else
      (.error (.wrap "getcitation.Service.DeleteQuoteByID()" e), r.2)
  | .ok _ => (.ok (), r.2)

/-- `getcitation.Service.GetRandomQuote`: calls the storage layer, wrapping
any error. -/
def Service.GetRandomQuote (f : Faults) (db : DBState) (pick : Nat) :
    Except GoError Quote :=
  match postgresql.GetRandomQuote f db pick with
  | .error e => .error (.wrap "getcitation.Service.GetRandomQuote()" e)
  | .ok q => .ok q

/-- `getcitation.Service.GetQuotes`: calls the storage layer and translates
`sql.ErrNoRows` into the service-level `ErrNoQuotesFound`; any other error
is returned unwrapped. -/
def Service.GetQuotes (f : Faults) (db : DBState) (authorFilter : String) :
    Except GoError (List Quote) :=
  match postgresql.GetQuotes f db authorFilter with
  | .error e =>
    if errorsIs e .sqlErrNoRows then
      .error (.wrap "getcitation.Service.GetQuotes()" .appErrNoQuotesFound)
    else
      .error e
  | .ok qs => .ok qs

/-- HTTP error messages (the `err...` constants of the transport layer). -/
def errMethodNotAllowed : String := "Method Not Allowed"

/-- `errBadRequest`. -/
def errBadRequest : String := "Invalid Request Body"

/-- `errInternalServerError`. -/
def errInternalServerError : String := "Internal Server Error"

/-- `errNotFound`. -/
def errNotFound : String := "Not Found"

/-- `errConflict`. -/
def errConflict : String := "Conflict"

/-- `messageNoID`. -/
def messageNoID : String := "ID must be present as query parameter"

/-- `messageMalformedID`. -/
def messageMalformedID : String := "ID parameter is malformed"

/-- `messageQuoteNotFoundByID`. -/
def messageQuoteNotFoundByID : String := "Quote with the provide ID doesn't exists"

/-- `messageQuoteAlreadyExists`. -/
def messageQuoteAlreadyExists : String := "This quote already exists"

/-- `messageQuotesNotFound`. -/
def messageQuotesNotFound : String := "No quotes found"

/-- `successDelete`. -/
def successDelete : String := "Quote deleted successfully"

/-- `getcitation.Status`: the status object of every JSON envelope.  A field
left out in the Go literal is its zero value, the empty string. -/
structure Status where
  Code : Nat
  Message : String
deriving Repr, DecidableEq

/-- `getcitation.Error`: the JSON error envelope. -/
structure Error where
  Status : GetCitation.getcitation.Status
  Message : String
deriving Repr, DecidableEq

/-- `getcitation.CreateQuoteRequest`: the decoded POST body. -/
structure CreateQuoteRequest where
  ID : Int
  Author : String
  Quote : String
deriving Repr, DecidableEq

/-- `getcitation.CreateQuoteResponse`. -/
structure CreateQuoteResponse where
  Status : GetCitation.getcitation.Status
  ID : Int
deriving Repr, DecidableEq

/-- `getcitation.GetQuotesResponse`. -/
structure GetQuotesResponse where
  Status : GetCitation.getcitation.Status
  Quotes : List Quote
deriving Repr, DecidableEq

/-- `getcitation.DeleteQuoteByIDResponse`. -/
structure DeleteQuoteByIDResponse where
  Status : GetCitation.getcitation.Status
  Message : String
deriving Repr, DecidableEq

/-- `getcitation.GetRandomQuoteResponse`. -/
structure GetRandomQuoteResponse where
  Status : GetCitation.getcitation.Status
  Quote : GetCitation.Quote
deriving Repr, DecidableEq

/-- The JSON body a handler encodes into the response writer. -/
inductive ResponseBody where
  | err (e : Error)
  | created (r : CreateQuoteResponse)
  | quotes (r : GetQuotesResponse)
  | quote (r : GetRandomQuoteResponse)
  | deleted (r : DeleteQuoteByIDResponse)
deriving Repr, DecidableEq

/-- What a handler writes: the `WriteHeader` status code and the encoded
JSON body. -/
structure Response where
  code : Nat
  body : ResponseBody
deriving Repr, DecidableEq

/-- An incoming HTTP request as the handlers observe it: the method, the URL
path, the `author` query parameter (`r.URL.Query().Get("author")`, empty when
absent) and the outcome of decoding the body as a `CreateQuoteRequest`
(`none` when the body is not valid JSON). -/
structure Request where
  Method : String
  Path : String
  queryAuthor : String
  body : Option CreateQuoteRequest
deriving Repr, DecidableEq

end getcitation

/-- `strings.Split` on a one-character separator, on the character list:
Go splits around every occurrence of the separator, and splitting the empty
string yields one empty field. -/
def splitChars (sep : Char) : List Char → List (List Char)
  | [] => [[]]
  | c :: cs =>
    if c = sep then [] :: splitChars sep cs
    else
      match splitChars sep cs with
      | [] => [[c]]
      | h :: t => (c :: h) :: t

/-- `strings.Split s sep` for a one-character separator. -/
def goSplit (s : String) (sep : Char) : List String :=
  (splitChars sep s.data).map List.asString

/-- The digits read left to right as a base-10 number; `none` as soon as a
non-digit appears. -/
def decDigits (cs : List Char) : Option Nat :=
  cs.foldl
    (fun acc c =>
      match acc with
      | none => none
      | some n => if c.isDigit then some (n * 10 + (c.toNat - 48)) else none)
    (some 0)

/-- `strconv.Atoi` (`ParseInt(s, 10, 0)` on a 64-bit platform): an optional
sign followed by at least one digit, and the value must fit a signed 64-bit
integer — at most 9223372036854775807 (2^63 - 1) for a positive number,
at most 9223372036854775808 (2^63) in magnitude for a negative one; every
other string, an out-of-range value (`ErrRange`) included, is an error
(`none`). -/
def Atoi (s : String) : Option Int :=
  match s.data with
  | [] => none
  | '+' :: cs =>
    if cs.isEmpty then none
    else (decDigits cs).bind fun n =>
      if n ≤ 9223372036854775807 then some (Int.ofNat n) else none
  | '-' :: cs =>
    if cs.isEmpty then none
    else (decDigits cs).bind fun n =>
      if n ≤ 9223372036854775808 then some (-(Int.ofNat n)) else none
  | cs =>
    (decDigits cs).bind fun n =>
      if n ≤ 9223372036854775807 then some (Int.ofNat n) else none

namespace getcitation

/-- `getcitation.Handlers.GetAndCreateQuotes`: dispatch on the method; POST
decodes and validates the body then calls `Service.CreateQuote`; GET calls
`Service.GetQuotes` with the author query parameter; anything else is 405. -/
def Handlers.GetAndCreateQuotes (f : Faults) (db : DBState) (r : Request) :
    Response × DBState :=
  if r.Method = "POST" then
    match r.body with
    | none => (⟨400, .err ⟨⟨400, errBadRequest⟩, ""⟩⟩, db)
    | some req =>
      if req.Author = "" || req.Quote = "" then
        (⟨400, .err ⟨⟨400, errBadRequest⟩, ""⟩⟩, db)
      else
        let s := Service.CreateQuote f db req.Author req.Quote
        match s.1 with
        | .error e =>
          if errorsIs e .appErrDuplicateEntry then
            (⟨409, .err ⟨⟨409, errConflict⟩, messageQuoteAlreadyExists⟩⟩, s.2)
          else
            (⟨500, .err ⟨⟨500, errInternalServerError⟩, ""⟩⟩, s.2)
        | .ok id => (⟨200, .created ⟨⟨200, ""⟩, id⟩⟩, s.2)
  else if r.Method = "GET" then
    match Service.GetQuotes f db r.queryAuthor with
    | .error e =>
      if errorsIs e .appErrNoQuotesFound then
        (⟨404, .err ⟨⟨404, errNotFound⟩, messageQuotesNotFound⟩⟩, db)
      else
        (⟨500, .err ⟨⟨500, errInternalServerError⟩, ""⟩⟩, db)
    | .ok qs => (⟨200, .quotes ⟨⟨200, ""⟩, qs⟩⟩, db)
  else
    (⟨405, .err ⟨⟨405, errMethodNotAllowed⟩, ""⟩⟩, db)

/-- `getcitation.Handlers.DeleteQuoteByID`: 405 for every method but DELETE;
splits the path on `/` and reads segment 2 (the Go code indexes `parts[2]`
without a bounds check; the model reads the segment with a default that is
reached only out of bounds — see the routing claim for the in-bounds proof);
empty segment and unparseable segment are 400; then `Service.DeleteQuoteByID`
with not-found mapped to 404. -/
def Handlers.DeleteQuoteByID (f : Faults) (db : DBState) (r : Request) :
    Response × DBState :=
  if r.Method ≠ "DELETE" then
    (⟨405, .err ⟨⟨405, errMethodNotAllowed⟩, ""⟩⟩, db)
  else
    let parts := goSplit r.Path '/'
    let idStr := parts.getD 2 ""
    if idStr = "" then
      (⟨400, .err ⟨⟨400, errBadRequest⟩, messageNoID⟩⟩, db)
    else
      match Atoi idStr with
      | none => (⟨400, .err ⟨⟨400, errBadRequest⟩, messageMalformedID⟩⟩, db)
      | some id =>
        let s := Service.DeleteQuoteByID f db id
        match s.1 with
        | .error e =>
          if errorsIs e .appErrNoQuotesFound then
            (⟨404, .err ⟨⟨404, errNotFound⟩, messageQuoteNotFoundByID⟩⟩, s.2)
          else
            (⟨500, .err ⟨⟨500, errInternalServerError⟩, ""⟩⟩, s.2)
        | .ok _ => (⟨200, .deleted ⟨⟨200, ""⟩, successDelete⟩⟩, s.2)

/-- `getcitation.Handlers.GetRandomQuote`: 405 for every method but GET,
500 on any service error, otherwise 200 with the quote.  Read-only: the
table state is untouched. -/
def Handlers.GetRandomQuote (f : Faults) (db : DBState) (pick : Nat)
    (r : Request) : Response :=
  if r.Method ≠ "GET" then
    ⟨405, .err ⟨⟨405, errMethodNotAllowed⟩, ""⟩⟩
  else
    match Service.GetRandomQuote f db pick with
    | .error _ => ⟨500, .err ⟨⟨500, errInternalServerError⟩, ""⟩⟩
    | .ok q => ⟨200, .quote ⟨⟨200, ""⟩, q⟩⟩

/-- Follows the spec's words for the `POST /quotes` status contract: a body
that is not valid JSON or whose decoded author or quote field is empty is
400; a service-reported duplicate is 409; any other service error is 500;
otherwise 200. -/
def specPostQuotesStatus (f : Faults) (db : DBState) (decoded : Option CreateQuoteRequest) : Nat :=
  match decoded with
  | none => 400
  | some req =>
    if req.Author = "" || req.Quote = "" then 400
    else
      match (Service.CreateQuote f db req.Author req.Quote).1 with
      | .error e => if errorsIs e .appErrDuplicateEntry then 409 else 500
      | .ok _ => 200

/-- The only error envelope `Handlers.GetAndCreateQuotes` can send for a
given status code: built from the constant strings alone. -/
def quotesErrOf (c : Nat) : Error :=
  if c = 400 then ⟨⟨400, errBadRequest⟩, ""⟩
  else if c = 404 then ⟨⟨404, errNotFound⟩, messageQuotesNotFound⟩
  else if c = 405 then ⟨⟨405, errMethodNotAllowed⟩, ""⟩
  else if c = 409 then ⟨⟨409, errConflict⟩, messageQuoteAlreadyExists⟩
  else ⟨⟨500, errInternalServerError⟩, ""⟩

/-- The only error envelope `Handlers.DeleteQuoteByID` can send for a given
status code and request: the two 400 variants are told apart by the request
path alone, never by the internal error. -/
def deleteErrOf (r : Request) (c : Nat) : Error :=
  if c = 405 then ⟨⟨405, errMethodNotAllowed⟩, ""⟩
  else if c = 400 then
    if (goSplit r.Path '/').getD 2 "" = "" then ⟨⟨400, errBadRequest⟩, messageNoID⟩
    else ⟨⟨400, errBadRequest⟩, messageMalformedID⟩
  else if c = 404 then ⟨⟨404, errNotFound⟩, messageQuoteNotFoundByID⟩
  else ⟨⟨500, errInternalServerError⟩, ""⟩

/-- The only error envelope `Handlers.GetRandomQuote` can send for a given
status code. -/
def randomErrOf (c : Nat) : Error :=
  if c = 405 then ⟨⟨405, errMethodNotAllowed⟩, ""⟩
  else ⟨⟨500, errInternalServerError⟩, ""⟩

/-- Every error envelope any handler can send: all built only from the
constant status and message strings of the transport layer. -/
def constantErrorEnvelopes : List Error :=
  [⟨⟨400, errBadRequest⟩, ""⟩,
   ⟨⟨400, errBadRequest⟩, messageNoID⟩,
   ⟨⟨400, errBadRequest⟩, messageMalformedID⟩,
   ⟨⟨404, errNotFound⟩, messageQuotesNotFound⟩,
   ⟨⟨404, errNotFound⟩, messageQuoteNotFoundByID⟩,
   ⟨⟨405, errMethodNotAllowed⟩, ""⟩,
   ⟨⟨409, errConflict⟩, messageQuoteAlreadyExists⟩,
   ⟨⟨500, errInternalServerError⟩, ""⟩]

end getcitation

/-- An error value the database driver could hand the program: one that is
not (and wraps none of) this program's own sentinel error values. -/
def isDriverError : GoError → Bool
  | .wrap _ e => isDriverError e
  | .errDuplicateEntry => false
  | .appErrDuplicateEntry => false
  | .appErrNoQuotesFound => false
  | _ => true

/-- All injected faults, if any, are errors the database driver could
produce. -/
def driverFaults (f : Faults) : Bool :=
  (match f.beginErr with | some e => isDriverError e | none => true) &&
  (match f.stmtErr with | some e => isDriverError e | none => true) &&
  (match f.affectedErr with | some e => isDriverError e | none => true) &&
  (match f.commitErr with | some e => isDriverError e | none => true)

/-! Helper lemmas. -/

theorem errorsIs_false_of_driver (e t : GoError) (he : isDriverError e = true)
    (ht : isDriverError t = false) : errorsIs e t = false := by
  induction e with
  | wrap op e ih => exact ih he
  | pqError c =>
    show (GoError.pqError c == t) = false
    rw [beq_eq_false_iff_ne]
    intro h
    rw [← h] at ht
    simp [isDriverError] at ht
  | sqlErrNoRows =>
    show (GoError.sqlErrNoRows == t) = false
    rw [beq_eq_false_iff_ne]
    intro h
    rw [← h] at ht
    simp [isDriverError] at ht
  | other m =>
    show (GoError.other m == t) = false
    rw [beq_eq_false_iff_ne]
    intro h
    rw [← h] at ht
    simp [isDriverError] at ht
  | errDuplicateEntry => simp [isDriverError] at he
  | appErrDuplicateEntry => simp [isDriverError] at he
  | appErrNoQuotesFound => simp [isDriverError] at he

theorem quote_length_filter_split (l : List Quote) (id : Int) :
    l.length = (l.filter fun r => r.ID == id).length
      + (l.filter fun r => r.ID != id).length :=
  List.length_eq_length_filter_add (fun r => r.ID == id)

/-- C2: the data-access CreateQuote returns the identifier the storage
generated on success, fails with `ErrDuplicateEntry` exactly when the
database reported the duplicate-key error code on the insert, and fails
with a generic (non-duplicate) error on any other database failure. -/
theorem C2_createQuote_duplicate_contract (f : Faults) (db : DBState) (q : Quote)
    (hb : f.beginErr = none) (hd : driverFaults f = true) :
    (∀ id, (postgresql.CreateQuote f db q).1 = .ok id →
        ∃ db2, insertOutcome f db q = .ok (id, db2)) ∧
    ((∃ e, (postgresql.CreateQuote f db q).1 = .error e ∧
        errorsIs e .errDuplicateEntry = true) ↔
      (∃ e, insertOutcome f db q = .error e ∧ pqCode e = some CodeDuplicateEntry)) ∧
    (∀ e, insertOutcome f db q = .error e →
        ∃ e2, (postgresql.CreateQuote f db q).1 = .error e2 ∧
          (errorsIs e2 .errDuplicateEntry = true ↔ pqCode e = some CodeDuplicateEntry)) := by
  simp only [postgresql.CreateQuote, hb]
  cases hs : f.stmtErr with
  | some e =>
    have hde : isDriverError e = true := by
      simp only [driverFaults, hs, Bool.and_eq_true] at hd
      exact hd.1.1.2
    have hout : insertOutcome f db q = .error e := by
      simp [insertOutcome, hs]
    rw [hout]
    by_cases hc : pqCode e = some CodeDuplicateEntry
    · simp only [hc, if_pos rfl]
      refine ⟨by simp, ?_, ?_⟩
      · constructor
        · intro _; exact ⟨e, rfl, hc⟩
        · intro _
          exact ⟨.wrap "postgresql.CreateQuote()" .errDuplicateEntry, rfl, rfl⟩
      · intro e2 he2
        cases he2
        exact ⟨.wrap "postgresql.CreateQuote()" .errDuplicateEntry, rfl,
          by simp [errorsIs, hc]⟩
    · have hno : errorsIs e .errDuplicateEntry = false :=
        errorsIs_false_of_driver e _ hde rfl
      simp only [if_neg hc]
      refine ⟨by simp, ?_, ?_⟩
      · constructor
        · rintro ⟨e2, he2, hdup⟩
          cases he2
          rw [show errorsIs (.wrap "postgresql.CreateQuote()" e) .errDuplicateEntry
              = errorsIs e .errDuplicateEntry from rfl, hno] at hdup
          cases hdup
        · rintro ⟨e2, he2, hcode⟩
          cases he2
          exact absurd hcode hc
      · intro e2 he2
        cases he2
        refine ⟨.wrap "postgresql.CreateQuote()" e, rfl, ?_⟩
        rw [show errorsIs (.wrap "postgresql.CreateQuote()" e) .errDuplicateEntry
            = errorsIs e .errDuplicateEntry from rfl, hno]
        simp [hc]
  | none =>
    have hout : insertOutcome f db q = dbInsert db q.Author q.Quote := by
      simp [insertOutcome, hs]
    rw [hout]
    by_cases hdup : dupExists db q.Author q.Quote
    · have hins : dbInsert db q.Author q.Quote = .error (.pqError CodeDuplicateEntry) := by
        simp [dbInsert, hdup]
      rw [hins]
      simp only [show pqCode (.pqError CodeDuplicateEntry) = some CodeDuplicateEntry from rfl,
        if_pos rfl]
      refine ⟨by simp, ?_, ?_⟩
      · constructor
        · intro _; exact ⟨.pqError CodeDuplicateEntry, rfl, rfl⟩
        · intro _
          exact ⟨.wrap "postgresql.CreateQuote()" .errDuplicateEntry, rfl, rfl⟩
      · intro e2 he2
        cases he2
        exact ⟨.wrap "postgresql.CreateQuote()" .errDuplicateEntry, rfl,
          ⟨fun _ => rfl, fun _ => rfl⟩⟩
    · have hins : dbInsert db q.Author q.Quote
          = .ok (db.nextId, ⟨db.rows ++ [⟨db.nextId, q.Author, q.Quote⟩], db.nextId + 1⟩) := by
        simp [dbInsert, hdup]
      rw [hins]
      cases hcm : f.commitErr with
      | some e =>
        have hde : isDriverError e = true := by
          simp only [driverFaults, hcm, Bool.and_eq_true] at hd
          exact hd.2
        have hno : errorsIs e .errDuplicateEntry = false :=
          errorsIs_false_of_driver e _ hde rfl
        refine ⟨by simp, ?_, ?_⟩
        · constructor
          · rintro ⟨e2, he2, hdup2⟩
            cases he2
            rw [show errorsIs (.wrap "postgresql.CreateQuote()" e) .errDuplicateEntry
                = errorsIs e .errDuplicateEntry from rfl, hno] at hdup2
            cases hdup2
          · rintro ⟨e2, he2, _⟩
            cases he2
        · intro e2 he2
          cases he2
      | none =>
        refine ⟨?_, ?_, ?_⟩
        · intro id hid
          cases hid
          exact ⟨_, rfl⟩
        · constructor
          · rintro ⟨e2, he2, _⟩
            cases he2
          · rintro ⟨e2, he2, _⟩
            cases he2
        · intro e2 he2
          cases he2

/-- Witness for C2 at a table holding (a, b): inserting the same pair again
is reported as a duplicate. -/
theorem C2_createQuote_duplicate_contract_witness :
    (∀ id, (postgresql.CreateQuote noFaults ⟨[⟨1, "a", "b"⟩], 2⟩ ⟨0, "a", "b"⟩).1 = .ok id →
        ∃ db2, insertOutcome noFaults ⟨[⟨1, "a", "b"⟩], 2⟩ ⟨0, "a", "b"⟩ = .ok (id, db2)) ∧
    ((∃ e, (postgresql.CreateQuote noFaults ⟨[⟨1, "a", "b"⟩], 2⟩ ⟨0, "a", "b"⟩).1 = .error e ∧
        errorsIs e .errDuplicateEntry = true) ↔
      (∃ e, insertOutcome noFaults ⟨[⟨1, "a", "b"⟩], 2⟩ ⟨0, "a", "b"⟩ = .error e ∧
        pqCode e = some CodeDuplicateEntry)) ∧
    (∀ e, insertOutcome noFaults ⟨[⟨1, "a", "b"⟩], 2⟩ ⟨0, "a", "b"⟩ = .error e →
        ∃ e2, (postgresql.CreateQuote noFaults ⟨[⟨1, "a", "b"⟩], 2⟩ ⟨0, "a", "b"⟩).1 = .error e2 ∧
          (errorsIs e2 .errDuplicateEntry = true ↔ pqCode e = some CodeDuplicateEntry)) :=
  C2_createQuote_duplicate_contract noFaults ⟨[⟨1, "a", "b"⟩], 2⟩ ⟨0, "a", "b"⟩ rfl rfl

/-- C3: deleting an identifier with no matching stored row fails with the
not-found error and leaves the rows unchanged; deleting an identifier with a
matching row succeeds, keeps exactly the rows with a different identifier,
and when exactly one row matched the row count drops by exactly one. -/
theorem C3_delete_by_id_semantics (db : DBState) (id : Int) :
    ((db.rows.filter fun r => r.ID == id) = [] →
      (getcitation.Service.DeleteQuoteByID noFaults db id).1
        = .error (.wrap "getcitation.Service.DeleteQuoteByID()" .appErrNoQuotesFound) ∧
      (getcitation.Service.DeleteQuoteByID noFaults db id).2 = db) ∧
    ((db.rows.filter fun r => r.ID == id) ≠ [] →
      (getcitation.Service.DeleteQuoteByID noFaults db id).1 = .ok () ∧
      (getcitation.Service.DeleteQuoteByID noFaults db id).2.rows
        = db.rows.filter (fun r => r.ID != id) ∧
      (getcitation.Service.DeleteQuoteByID noFaults db id).2.nextId = db.nextId ∧
      (getcitation.Service.DeleteQuoteByID noFaults db id).2.rows.length
        + (db.rows.filter fun r => r.ID == id).length = db.rows.length) ∧
    (∀ q, (db.rows.filter fun r => r.ID == id) = [q] →
      (getcitation.Service.DeleteQuoteByID noFaults db id).2.rows.length + 1
        = db.rows.length) := by
  have hsplit := quote_length_filter_split db.rows id
  have h2 : (db.rows.filter fun r => r.ID == id) ≠ [] →
      (getcitation.Service.DeleteQuoteByID noFaults db id).1 = .ok () ∧
      (getcitation.Service.DeleteQuoteByID noFaults db id).2.rows
        = db.rows.filter (fun r => r.ID != id) ∧
      (getcitation.Service.DeleteQuoteByID noFaults db id).2.nextId = db.nextId ∧
      (getcitation.Service.DeleteQuoteByID noFaults db id).2.rows.length
        + (db.rows.filter fun r => r.ID == id).length = db.rows.length := by
    intro hne
    have h0 : ¬((db.rows.filter fun r => r.ID == id).length = 0) := by
      simpa [List.length_eq_zero] using hne
    simp only [getcitation.Service.DeleteQuoteByID, postgresql.DeleteQuoteByID, noFaults,
      if_neg h0]
    exact ⟨by trivial, by trivial, by trivial, by omega⟩
  refine ⟨?_, h2, ?_⟩
  · intro hnil
    have h0 : (db.rows.filter fun r => r.ID == id).length = 0 := by
      simp [hnil]
    simp only [getcitation.Service.DeleteQuoteByID, postgresql.DeleteQuoteByID, noFaults,
      if_pos h0]
    exact ⟨by trivial, by trivial⟩
  · intro q hq
    have hne : (db.rows.filter fun r => r.ID == id) ≠ [] := by
      rw [hq]; simp
    have := (h2 hne).2.2.2
    rw [hq] at this
    simpa using this

theorem splitChars_ne_nil (sep : Char) (l : List Char) : splitChars sep l ≠ [] := by
  induction l with
  | nil => simp [splitChars]
  | cons c cs ih =>
    simp only [splitChars]
    by_cases h : c = sep
    · simp [h]
    · rw [if_neg h]
      cases hs : splitChars sep cs with
      | nil => simp
      | cons a t => simp

theorem splitChars_length (sep : Char) (l : List Char) :
    (splitChars sep l).length = l.count sep + 1 := by
  induction l with
  | nil => simp [splitChars]
  | cons c cs ih =>
    simp only [splitChars]
    by_cases h : c = sep
    · rw [if_pos h]
      have hc : (c == sep) = true := by simp [h]
      simp [List.count_cons, hc, ih]
    · rw [if_neg h]
      cases hs : splitChars sep cs with
      | nil => exact absurd hs (splitChars_ne_nil sep cs)
      | cons a t =>
        rw [hs] at ih
        have hc : (c == sep) = false := by simp [h]
        simp only [List.length_cons, List.count_cons, hc] at ih ⊢
        simp [ih]

/-- C10: every request path with prefix "/quotes/" splits on "/" into at
least three segments, so the delete handler's unchecked access to segment 2
is in bounds; segments after the identifier are ignored, so deleting
/quotes/5/extra behaves as deleting /quotes/5. -/
theorem C10_delete_path_split_in_bounds (t : String) (f : Faults) (db : DBState)
    (a : String) (b : Option getcitation.CreateQuoteRequest) :
    3 ≤ (goSplit ("/quotes/" ++ t) '/').length ∧
    getcitation.Handlers.DeleteQuoteByID f db ⟨"DELETE", "/quotes/5/extra", a, b⟩
      = getcitation.Handlers.DeleteQuoteByID f db ⟨"DELETE", "/quotes/5", a, b⟩ := by
  constructor
  · have hlen : (goSplit ("/quotes/" ++ t) '/').length
        = ("/quotes/" ++ t).data.count '/' + 1 := by
      rw [goSplit, List.length_map, splitChars_length]
    rw [hlen, String.data_append, List.count_append]
    have h2 : ("/quotes/".data).count '/' = 2 := by decide
    omega
  · rfl

/-- C4: the delete handler sends 400 for an empty identifier segment, 400
for a segment that does not parse as an integer, 404 when the service
reports not-found, and 200 with the confirmation message on success. -/
theorem C4_delete_handler_statuses (f : Faults) (db : DBState) (p a : String)
    (b : Option getcitation.CreateQuoteRequest) :
    ((goSplit p '/').getD 2 "" = "" →
      (getcitation.Handlers.DeleteQuoteByID f db ⟨"DELETE", p, a, b⟩).1
        = ⟨400, .err ⟨⟨400, getcitation.errBadRequest⟩, getcitation.messageNoID⟩⟩) ∧
    ((goSplit p '/').getD 2 "" ≠ "" → Atoi ((goSplit p '/').getD 2 "") = none →
      (getcitation.Handlers.DeleteQuoteByID f db ⟨"DELETE", p, a, b⟩).1
        = ⟨400, .err ⟨⟨400, getcitation.errBadRequest⟩, getcitation.messageMalformedID⟩⟩) ∧
    (∀ id e, Atoi ((goSplit p '/').getD 2 "") = some id →
      (getcitation.Service.DeleteQuoteByID f db id).1 = .error e →
      errorsIs e .appErrNoQuotesFound = true →
      (getcitation.Handlers.DeleteQuoteByID f db ⟨"DELETE", p, a, b⟩).1
        = ⟨404, .err ⟨⟨404, getcitation.errNotFound⟩, getcitation.messageQuoteNotFoundByID⟩⟩) ∧
    (∀ id, Atoi ((goSplit p '/').getD 2 "") = some id →
      (getcitation.Service.DeleteQuoteByID f db id).1 = .ok () →
      (getcitation.Handlers.DeleteQuoteByID f db ⟨"DELETE", p, a, b⟩).1
        = ⟨200, .deleted ⟨⟨200, ""⟩, getcitation.successDelete⟩⟩) := by
  have hmethod : ¬(("DELETE" : String) ≠ "DELETE") := fun h => h rfl
  simp only [getcitation.Handlers.DeleteQuoteByID, if_neg hmethod]
  refine ⟨?_, ?_, ?_, ?_⟩
  · intro h
    rw [if_pos h]
  · intro h hn
    rw [if_neg h, hn]
  · intro id e hs hsvc hdup
    have hne : ¬((goSplit p '/').getD 2 "" = "") := by
      intro hEq
      rw [hEq] at hs
      exact Option.noConfusion hs
    rw [if_neg hne, hs]
    simp [hsvc, hdup]
  · intro id hs hok
    have hne : ¬((goSplit p '/').getD 2 "" = "") := by
      intro hEq
      rw [hEq] at hs
      exact Option.noConfusion hs
    rw [if_neg hne, hs]
    simp only [hok]

theorem getRandomQuote_ok_mem (f : Faults) (db : DBState) (pick : Nat) (q : Quote)
    (h : postgresql.GetRandomQuote f db pick = .ok q) : q ∈ db.rows := by
  unfold postgresql.GetRandomQuote at h
  cases hb : f.beginErr with
  | some e => rw [hb] at h; exact Except.noConfusion h
  | none =>
    rw [hb] at h
    cases hs : f.stmtErr with
    | some e => rw [hs] at h; exact Except.noConfusion h
    | none =>
      rw [hs] at h
      cases hg : db.rows.get? (pick % db.rows.length) with
      | none => rw [hg] at h; exact Except.noConfusion h
      | some q0 =>
        rw [hg] at h
        cases hc : f.commitErr with
        | some e => rw [hc] at h; exact Except.noConfusion h
        | none =>
          rw [hc] at h
          injection h with h
          rw [← h]
          exact List.get?_mem hg

theorem serviceRandom_ok_mem (f : Faults) (db : DBState) (pick : Nat) (q : Quote)
    (h : getcitation.Service.GetRandomQuote f db pick = .ok q) : q ∈ db.rows := by
  unfold getcitation.Service.GetRandomQuote at h
  cases hst : postgresql.GetRandomQuote f db pick with
  | error e => rw [hst] at h; exact Except.noConfusion h
  | ok q0 =>
    rw [hst] at h
    injection h with h
    rw [← h]
    exact getRandomQuote_ok_mem f db pick q0 hst

theorem serviceCreate_ok_iff (f : Faults) (db : DBState) (author quote : String)
    (id : Int) :
    (getcitation.Service.CreateQuote f db author quote).1 = .ok id ↔
      (postgresql.CreateQuote f db ⟨0, author, quote⟩).1 = .ok id := by
  simp only [getcitation.Service.CreateQuote]
  cases hst : (postgresql.CreateQuote f db ⟨0, author, quote⟩).1 with
  | error e =>
    by_cases hdup : errorsIs e .errDuplicateEntry = true
    · simp [hdup]
    · simp [hdup]
  | ok id2 => simp

/-- C1: the POST /quotes status code follows the spec contract (400 for a
non-JSON body or an empty author or quote field, 409 when the service
reports a duplicate, 500 on any other service error, 200 otherwise), and a
successful response carries exactly the identifier returned by the service. -/
theorem C1_post_quotes_contract (f : Faults) (db : DBState) (p a : String)
    (b : Option getcitation.CreateQuoteRequest) :
    (getcitation.Handlers.GetAndCreateQuotes f db ⟨"POST", p, a, b⟩).1.code
      = getcitation.specPostQuotesStatus f db b ∧
    (∀ req id, b = some req → req.Author ≠ "" → req.Quote ≠ "" →
      (getcitation.Service.CreateQuote f db req.Author req.Quote).1 = .ok id →
      (getcitation.Handlers.GetAndCreateQuotes f db ⟨"POST", p, a, b⟩).1
        = ⟨200, .created ⟨⟨200, ""⟩, id⟩⟩) := by
  simp only [getcitation.Handlers.GetAndCreateQuotes, getcitation.specPostQuotesStatus,
    if_true]
  cases b with
  | none => exact ⟨rfl, fun req id h => Option.noConfusion h⟩
  | some req =>
    by_cases hval : (decide (req.Author = "") || decide (req.Quote = "")) = true
    · simp only [hval, if_true]
      refine ⟨by trivial, ?_⟩
      intro req2 id heq hA hQ _
      injection heq with heq
      rw [← heq] at hA hQ
      rcases Bool.or_eq_true_iff.mp hval with h | h
      · exact absurd (of_decide_eq_true h) hA
      · exact absurd (of_decide_eq_true h) hQ
    · simp only [hval, if_false]
      cases hsvc : (getcitation.Service.CreateQuote f db req.Author req.Quote).1 with
      | error e =>
        by_cases hdup : errorsIs e .appErrDuplicateEntry = true
        · simp only [hdup, if_true]
          refine ⟨rfl, ?_⟩
          intro req2 id heq _ _ hok
          injection heq with heq
          rw [← heq] at hok
          rw [hsvc] at hok
          exact Except.noConfusion hok
        · simp only [hdup, if_false]
          refine ⟨rfl, ?_⟩
          intro req2 id heq _ _ hok
          injection heq with heq
          rw [← heq] at hok
          rw [hsvc] at hok
          exact Except.noConfusion hok
      | ok id =>
        refine ⟨rfl, ?_⟩
        intro req2 id2 heq _ _ hok
        injection heq with heq
        rw [← heq] at hok
        rw [hsvc] at hok
        injection hok with hok
        rw [hok]
        simp

/-- C5: the data-access GetQuotes returns exactly the (possibly filtered)
stored rows, in particular the empty list and no error when nothing
matches, and the GET /quotes handler then answers 200 with the empty list,
never 404. -/
theorem C5_get_quotes_empty_is_ok (db : DBState) (af p a : String)
    (b : Option getcitation.CreateQuoteRequest) :
    postgresql.GetQuotes noFaults db af
      = .ok (if af = "" then db.rows else db.rows.filter fun r => r.Author == af) ∧
    ((if af = "" then db.rows else db.rows.filter fun r => r.Author == af) = [] →
      postgresql.GetQuotes noFaults db af = .ok [] ∧
      (getcitation.Handlers.GetAndCreateQuotes noFaults db ⟨"GET", p, af, b⟩).1
        = ⟨200, .quotes ⟨⟨200, ""⟩, []⟩⟩) := by
  have hq : postgresql.GetQuotes noFaults db af
      = .ok (if af = "" then db.rows else db.rows.filter fun r => r.Author == af) := by
    simp [postgresql.GetQuotes, noFaults]
  refine ⟨hq, ?_⟩
  intro hnil
  rw [hnil] at hq
  refine ⟨hq, ?_⟩
  have hsvc : getcitation.Service.GetQuotes noFaults db af = .ok [] := by
    unfold getcitation.Service.GetQuotes
    rw [hq]
  have hpost : ¬(("GET" : String) = "POST") := by decide
  simp only [getcitation.Handlers.GetAndCreateQuotes, if_neg hpost, hsvc, if_true]

/-- C6: GET /quotes/random answers 200 only with a quote that is stored; on
every failing lookup, the empty table included, it answers 500, and no
response of this handler for a GET request is a 404. -/
theorem C6_random_quote_contract (f : Faults) (db : DBState) (pick : Nat)
    (p a : String) (b : Option getcitation.CreateQuoteRequest) :
    (∀ st q, getcitation.Handlers.GetRandomQuote f db pick ⟨"GET", p, a, b⟩
        = ⟨200, .quote ⟨st, q⟩⟩ → q ∈ db.rows) ∧
    (∀ e, getcitation.Service.GetRandomQuote f db pick = .error e →
      getcitation.Handlers.GetRandomQuote f db pick ⟨"GET", p, a, b⟩
        = ⟨500, .err ⟨⟨500, getcitation.errInternalServerError⟩, ""⟩⟩) ∧
    (db.rows = [] →
      getcitation.Handlers.GetRandomQuote f db pick ⟨"GET", p, a, b⟩
        = ⟨500, .err ⟨⟨500, getcitation.errInternalServerError⟩, ""⟩⟩) ∧
    ((getcitation.Handlers.GetRandomQuote f db pick ⟨"GET", p, a, b⟩).code = 200 ∨
     (getcitation.Handlers.GetRandomQuote f db pick ⟨"GET", p, a, b⟩).code = 500) := by
  have hmethod : ¬(("GET" : String) ≠ "GET") := fun h => h rfl
  simp only [getcitation.Handlers.GetRandomQuote, if_neg hmethod]
  cases hsvc : getcitation.Service.GetRandomQuote f db pick with
  | error e =>
    refine ⟨?_, fun e2 _ => rfl, fun _ => rfl, Or.inr rfl⟩
    intro st q h
    exact absurd h (by simp)
  | ok q0 =>
    have hmem : q0 ∈ db.rows := serviceRandom_ok_mem f db pick q0 hsvc
    refine ⟨?_, ?_, ?_, Or.inl rfl⟩
    · intro st q h
      injection h with hcode hbody
      injection hbody with hb
      injection hb with hst hq
      rw [← hq]
      exact hmem
    · intro e2 he2
      exact Except.noConfusion he2
    · intro hnil
      rw [hnil] at hmem
      exact absurd hmem (List.not_mem_nil q0)

/-- C9: every unsupported method gets a 405 Method Not Allowed envelope and
the table state is untouched: methods other than GET and POST on /quotes,
other than DELETE on /quotes/{id}, other than GET on /quotes/random. -/
theorem C9_method_not_allowed (f : Faults) (db : DBState) (m p a : String)
    (b : Option getcitation.CreateQuoteRequest) (pick : Nat) :
    (m ≠ "GET" → m ≠ "POST" →
      getcitation.Handlers.GetAndCreateQuotes f db ⟨m, p, a, b⟩
        = (⟨405, .err ⟨⟨405, getcitation.errMethodNotAllowed⟩, ""⟩⟩, db)) ∧
    (m ≠ "DELETE" →
      getcitation.Handlers.DeleteQuoteByID f db ⟨m, p, a, b⟩
        = (⟨405, .err ⟨⟨405, getcitation.errMethodNotAllowed⟩, ""⟩⟩, db)) ∧
    (m ≠ "GET" →
      getcitation.Handlers.GetRandomQuote f db pick ⟨m, p, a, b⟩
        = ⟨405, .err ⟨⟨405, getcitation.errMethodNotAllowed⟩, ""⟩⟩) := by
  refine ⟨?_, ?_, ?_⟩
  · intro hg hp
    simp only [getcitation.Handlers.GetAndCreateQuotes, if_neg hp, if_neg hg]
  · intro hd
    simp only [getcitation.Handlers.DeleteQuoteByID, if_pos hd]
  · intro hg
    simp only [getcitation.Handlers.GetRandomQuote, if_pos hg]

/-- C8: the id field of the POST body is ignored (two bodies differing only
in it give the same response and the same state), and a successful response
carries the identifier the storage layer generated, never the
client-supplied one. -/
theorem C8_post_id_field_ignored (f : Faults) (db : DBState) (p a : String)
    (req : getcitation.CreateQuoteRequest) (id1 id2 : Int) :
    getcitation.Handlers.GetAndCreateQuotes f db
        ⟨"POST", p, a, some ⟨id1, req.Author, req.Quote⟩⟩
      = getcitation.Handlers.GetAndCreateQuotes f db
        ⟨"POST", p, a, some ⟨id2, req.Author, req.Quote⟩⟩ ∧
    (∀ c, (getcitation.Handlers.GetAndCreateQuotes f db ⟨"POST", p, a, some req⟩).1.body
        = .created c →
      (postgresql.CreateQuote f db ⟨0, req.Author, req.Quote⟩).1 = .ok c.ID) := by
  refine ⟨rfl, ?_⟩
  intro c hc
  simp only [getcitation.Handlers.GetAndCreateQuotes, if_true] at hc
  by_cases hval : (decide (req.Author = "") || decide (req.Quote = "")) = true
  · simp only [hval, if_true] at hc
    exact absurd hc (by simp)
  · simp only [hval, if_false] at hc
    cases hsvc : (getcitation.Service.CreateQuote f db req.Author req.Quote).1 with
    | error e =>
      rw [hsvc] at hc
      by_cases hdup : errorsIs e .appErrDuplicateEntry = true
      · simp [hdup] at hc
      · simp [hdup] at hc
    | ok id =>
      rw [hsvc] at hc
      have hc2 : getcitation.ResponseBody.created ⟨⟨200, ""⟩, id⟩
          = getcitation.ResponseBody.created c := by simpa using hc
      injection hc2 with hmk
      rw [← hmk]
      exact (serviceCreate_ok_iff f db req.Author req.Quote id).mp hsvc

theorem quotesErrOf_mem (c : Nat) :
    getcitation.quotesErrOf c ∈ getcitation.constantErrorEnvelopes := by
  unfold getcitation.quotesErrOf
  repeat' split
  all_goals decide

theorem deleteErrOf_mem (r : getcitation.Request) (c : Nat) :
    getcitation.deleteErrOf r c ∈ getcitation.constantErrorEnvelopes := by
  unfold getcitation.deleteErrOf
  repeat' split
  all_goals decide

theorem randomErrOf_mem (c : Nat) :
    getcitation.randomErrOf c ∈ getcitation.constantErrorEnvelopes := by
  unfold getcitation.randomErrOf
  repeat' split
  all_goals decide

theorem quotes_err_char (f : Faults) (db : DBState) (r : getcitation.Request)
    (e : getcitation.Error)
    (h : (getcitation.Handlers.GetAndCreateQuotes f db r).1.body = .err e) :
    e = getcitation.quotesErrOf e.Status.Code := by
  simp only [getcitation.Handlers.GetAndCreateQuotes] at h
  repeat' split at h
  all_goals try (simp at h)
  all_goals try (subst h)
  all_goals simp_all [getcitation.quotesErrOf]

theorem delete_err_char (f : Faults) (db : DBState) (r : getcitation.Request)
    (e : getcitation.Error)
    (h : (getcitation.Handlers.DeleteQuoteByID f db r).1.body = .err e) :
    e = getcitation.deleteErrOf r e.Status.Code := by
  simp only [getcitation.Handlers.DeleteQuoteByID] at h
  repeat' split at h
  all_goals try (simp at h)
  all_goals try (subst h)
  all_goals simp_all [getcitation.deleteErrOf]

theorem random_err_char (f : Faults) (db : DBState) (pick : Nat)
    (r : getcitation.Request) (e : getcitation.Error)
    (h : (getcitation.Handlers.GetRandomQuote f db pick r).body = .err e) :
    e = getcitation.randomErrOf e.Status.Code := by
  simp only [getcitation.Handlers.GetRandomQuote] at h
  repeat' split at h
  all_goals try (simp at h)
  all_goals try (subst h)
  all_goals simp_all [getcitation.randomErrOf]

/-- C7: every error body any handler sends is one of the fixed constant
envelopes (no internal error text), and two failing runs of the same handler
on the same request with the same failure class produce identical bodies,
whatever the differing internal errors were. -/
theorem C7_error_bodies_constant (f1 f2 : Faults) (db1 db2 : DBState)
    (r : getcitation.Request) (pick1 pick2 : Nat) :
    (∀ e, (getcitation.Handlers.GetAndCreateQuotes f1 db1 r).1.body = .err e →
      e ∈ getcitation.constantErrorEnvelopes) ∧
    (∀ e, (getcitation.Handlers.DeleteQuoteByID f1 db1 r).1.body = .err e →
      e ∈ getcitation.constantErrorEnvelopes) ∧
    (∀ e, (getcitation.Handlers.GetRandomQuote f1 db1 pick1 r).body = .err e →
      e ∈ getcitation.constantErrorEnvelopes) ∧
    (∀ e1 e2, (getcitation.Handlers.GetAndCreateQuotes f1 db1 r).1.body = .err e1 →
      (getcitation.Handlers.GetAndCreateQuotes f2 db2 r).1.body = .err e2 →
      e1.Status.Code = e2.Status.Code → e1 = e2) ∧
    (∀ e1 e2, (getcitation.Handlers.DeleteQuoteByID f1 db1 r).1.body = .err e1 →
      (getcitation.Handlers.DeleteQuoteByID f2 db2 r).1.body = .err e2 →
      e1.Status.Code = e2.Status.Code → e1 = e2) ∧
    (∀ e1 e2, (getcitation.Handlers.GetRandomQuote f1 db1 pick1 r).body = .err e1 →
      (getcitation.Handlers.GetRandomQuote f2 db2 pick2 r).body = .err e2 →
      e1.Status.Code = e2.Status.Code → e1 = e2) := by
  refine ⟨?_, ?_, ?_, ?_, ?_, ?_⟩
  · intro e h
    rw [quotes_err_char f1 db1 r e h]
    exact quotesErrOf_mem _
  · intro e h
    rw [delete_err_char f1 db1 r e h]
    exact deleteErrOf_mem _ _
  · intro e h
    rw [random_err_char f1 db1 pick1 r e h]
    exact randomErrOf_mem _
  · intro e1 e2 h1 h2 hcode
    rw [quotes_err_char f1 db1 r e1 h1, hcode, ← quotes_err_char f2 db2 r e2 h2]
  · intro e1 e2 h1 h2 hcode
    rw [delete_err_char f1 db1 r e1 h1, hcode, ← delete_err_char f2 db2 r e2 h2]
  · intro e1 e2 h1 h2 hcode
    rw [random_err_char f1 db1 pick1 r e1 h1, hcode,
      ← random_err_char f2 db2 pick2 r e2 h2]

end GetCitation
